import Mathlib

/-!
Verification of the MACH_VII visual-servoing and perception pipeline.

Shallow embedding of the core components, translated from the Python
sources:
  * `shared/filters.py`            (1-D Kalman filter)
  * `strategy/grasp_planner.py`    (grasp pose planner)
  * `strategy/visual_servoing.py`  (servo control loop, auto focus, grasp
                                    monitoring)
  * `sensor/projection/pybullet_projection.py` (projection math)
  * `sensor/implementations/pybullet_vision.py` (ground-truth correction)
  * `sensor/perception/vision_bridge.py` (depth ROI statistics, camera
                                    source switching)

Python floats are modelled as exact real (or rational) arithmetic; the
fixed-cadence polling loops are modelled as step functions on explicit
state, with sleeps treated as no-ops on the modelled state.
-/

namespace MachVII

/-! ## shared/filters.py : KalmanFilter

Fields follow the Python attributes; `is_initialized` is renamed `inited`.
-/

structure KalmanFilter where
  post_error_cov : ℝ
  state_estimate : ℝ
  process_var : ℝ
  measure_var : ℝ
  inited : Bool

/-- Constructor `KalmanFilter.__init__`: post_error_cov = 1.0,
state_estimate = 0.0, not yet initialized. -/
def KalmanFilter.init (process_variance measurement_variance : ℝ) : KalmanFilter :=
  ⟨1, 0, process_variance, measurement_variance, false⟩

/-- Method `update` of `shared/filters.py`: first measurement initializes
the state; afterwards predict (inflate covariance by the process variance)
and correct with the Kalman gain.  Returns (filter output, new state). -/
noncomputable def KalmanFilter.update (f : KalmanFilter) (measurement : ℝ) :
    ℝ × KalmanFilter :=
  if f.inited = false then
    (measurement, { f with state_estimate := measurement, inited := true })
  else
    let prior_estimate := f.state_estimate
    let prior_error_cov := f.post_error_cov + f.process_var
    let kalman_gain := prior_error_cov / (prior_error_cov + f.measure_var)
    let new_estimate := prior_estimate + kalman_gain * (measurement - prior_estimate)
    (new_estimate,
      { f with state_estimate := new_estimate,
               post_error_cov := (1 - kalman_gain) * prior_error_cov })

/-- Method `reset`: force the state to a literal value and restore the
initial covariance prior. -/
def KalmanFilter.reset (f : KalmanFilter) (initial_value : ℝ) : KalmanFilter :=
  { f with state_estimate := initial_value, post_error_cov := 1 }

/-- Feeding the same measurement `m` to the filter `n` times in a row. -/
noncomputable def KalmanFilter.iterate (f : KalmanFilter) (m : ℝ) : ℕ → KalmanFilter
  | 0 => f
  | n + 1 => ((f.iterate m n).update m).2

/-! ## strategy/grasp_planner.py : GraspPlanner -/

structure GraspParams where
  approach_offset_z : ℚ
  gripper_width : ℚ

/-- Rational 3-vector used for the planner (robot-base coordinates, cm). -/
structure QVec3 where
  x : ℚ
  y : ℚ
  z : ℚ

structure GraspPose where
  pre_grasp : QVec3
  grasp : QVec3
  gripper_width : ℚ

/-- The name-keyed `grasp_memory` dictionary of `GraspPlanner.__init__`. -/
def grasp_memory (name : String) : Option GraspParams :=
  if name = "bottle" then some ⟨5, 80⟩
  else if name = "cup" then some ⟨5, 90⟩
  else if name = "teddy" then some ⟨8, 100⟩
  else if name = "duck" then some ⟨5, 80⟩
  else if name = "soccerball" then some ⟨10, 100⟩
  else if name = "default" then some ⟨5, 80⟩
  else none

/-- Check `"kite" in object_name.lower()` from the heuristic correction. -/
def kiteName (name : String) : Bool :=
  decide (List.IsInfix "kite".toList name.toLower.toList)

/-- Method `GraspPlanner.compute_grasp_pose`.

GRIPPER_MAX_WIDTH_CM = 6, FOCAL_LENGTH_PX = 520, assumed distance 50 cm.
On the memory path the Python function reads the local
`grasp_pos_x_offset` that is only ever assigned on the no-memory path, so
the call raises UnboundLocalError; that fallible path is modelled as
`none`.  The no-memory ("generic GPD") path is modelled exactly. -/
def compute_grasp_pose (object_name : String) (object_position : QVec3)
    (bw bh : ℕ) : Option GraspPose :=
  match grasp_memory object_name with
  | some _ => none
  | none =>
    let est_w : ℚ := (bw : ℚ) / 520 * 50
    let est_h : ℚ := (bh : ℚ) / 520 * 50
    let min_dim : ℚ := min est_w est_h
    -- (x offset, gripper percent, grasp depth offset, approach offset z)
    let generic : ℚ × ℚ × ℚ × ℚ :=
      if 0 < bw ∧ 0 < bh then
        if 6 < min_dim then
          (est_w / 2 - 3/2, 60, -2, 10)
        else
          (0, max (min ((min_dim + 2) / 6 * 100) 100) 40, -3, 10)
      else (0, 100, -3, 10)
    let xo := generic.1
    let gp := generic.2.1
    let gd := if kiteName object_name then (-1/2 : ℚ) else generic.2.2.1
    let ao := if kiteName object_name then (8 : ℚ) else generic.2.2.2
    some { pre_grasp := ⟨object_position.x + xo, object_position.y, object_position.z + ao⟩
           grasp := ⟨object_position.x + xo, object_position.y, object_position.z + gd⟩
           gripper_width := min gp 100 }

/-! ## sensor/perception/vision_bridge.py : camera source switching

State of `VisionBridge` relevant to source selection.  In both modes the
constructor registers the keys "main" and "gripper" in `self.drivers`
(pointing at the same driver instance), so driver lookup succeeds exactly
for those keys. -/

structure BridgeState where
  sim_mode : Bool
  current_source_key : String
  current_mode : String

/-- State after `VisionBridge.__init__`. -/
def initBridge (sim : Bool) : BridgeState := ⟨sim, "main", "DEFAULT"⟩

/-- Method `switch_source`: maps "realsense" to "main", rejects unknown
keys, and in real-hardware mode rejects the gripper camera. -/
def switch_source (st : BridgeState) (source_key : String) : BridgeState :=
  let key := if source_key = "realsense" then "main" else source_key
  if key ∉ ["main", "gripper"] then st
  else if st.sim_mode = false ∧ key = "gripper" then st
  else { st with current_source_key := key }

/-- Method `set_mode`: records the mode, then switches to the gripper
camera for EXPLOITATION and to the main camera otherwise. -/
def set_mode (st : BridgeState) (mode : String) : BridgeState :=
  let st1 := { st with current_mode := mode }
  if mode = "EXPLOITATION" then switch_source st1 "gripper"
  else switch_source st1 "main"

/-- An arbitrary interleaving of the two public mutators of the bridge. -/
inductive BridgeOp where
  | switch (key : String)
  | mode (m : String)

def applyBridgeOp (st : BridgeState) (op : BridgeOp) : BridgeState :=
  match op with
  | .switch k => switch_source st k
  | .mode m => set_mode st m

def runBridgeOps (st : BridgeState) (ops : List BridgeOp) : BridgeState :=
  ops.foldl applyBridgeOp st

/-! ## strategy/visual_servoing.py : GRASP-state gripper monitoring

The monitoring loop samples `system_state.robot.gripper_state` at 20 Hz
(0.05 s sleep per iteration) for at most 3.5 s, i.e. at most 70
iterations.  The aperture readings are modelled as a stream `g : ℕ → ℚ`
of one value per tick; `g 0` is the value read before the loop.  The
cancellation branch is not modelled (no cancellation is requested). -/

def monitorFrom (g : ℕ → ℚ) : ℕ → ℕ → ℕ → ℕ
  | 0, i, _ => i
  | fuel + 1, i, stable =>
    let stable2 := if |g (i + 1) - g i| < 1/2000 then stable + 1 else 0
    if 10 ≤ stable2 then i + 1
    else monitorFrom g fuel (i + 1) stable2

/-- Index of the last aperture sample the GRASP monitoring loop reads:
epsilon 0.0005, 10 consecutive stable samples, 3.5 s / 20 Hz = 70 ticks. -/
def graspMonitorStop (g : ℕ → ℚ) : ℕ := monitorFrom g 70 0 0

/-- Grasp verification: `current_gripper > 0.005` means an object is held. -/
def graspVerify (aperture : ℚ) : Bool := decide ((1/200 : ℚ) < aperture)

/-- The aperture changed by less than 0.0005 between ticks j and j+1. -/
def smallDiff (g : ℕ → ℚ) (j : ℕ) : Prop := |g (j + 1) - g j| < 1/2000

/-- Tick k is the end of a run of 10 consecutive small aperture changes. -/
def stableWindow (g : ℕ → ℚ) (k : ℕ) : Prop :=
  10 ≤ k ∧ ∀ j : ℕ, k - 10 ≤ j → j < k → smallDiff g j

/-! ## strategy/visual_servoing.py : _execute_auto_focus (hill climbing)

Modelled as a pure function of the focus-score stream `sc` (the value of
`system_state.focus_score` observed after the n-th move).  The function
returns the list of commanded z positions (in order) and the evaluation
trace of (z offset from the start position, observed score) pairs.
step size 0.5 cm, search range 5 cm, at most 10 iterations,
improvement threshold 10.0. -/

def afLoop (startZ : ℚ) (sc : ℕ → ℚ) :
    ℕ → ℕ → ℚ → ℚ → ℚ → List ℚ × List (ℚ × ℚ)
  | 0, _, _, _, _ => ([], [])
  | fuel + 1, n, offset, best, dir =>
    let targetZ := startZ + offset + 1/2 * dir
    if 5 < |targetZ - startZ| then ([], [])
    else
      let s := sc n
      let ev := (offset + 1/2 * dir, s)
      if best + 10 < s then
        let rest := afLoop startZ sc fuel (n + 1) (offset + 1/2 * dir) s dir
        (targetZ :: rest.1, ev :: rest.2)
      else if dir = 1 then
        let rest := afLoop startZ sc fuel (n + 1) 0 best (-1)
        (targetZ :: startZ :: rest.1, ev :: rest.2)
      else
        ([targetZ, startZ + offset], [ev])

/-- Entry point of `_execute_auto_focus`: initial score read before the
loop, offset 0, +z direction first, 10 iterations of fuel. -/
def autoFocus (startZ : ℚ) (sc : ℕ → ℚ) (initScore : ℚ) : List ℚ × List (ℚ × ℚ) :=
  afLoop startZ sc 10 0 0 initScore 1

/-- Best-scoring (offset, score) pair of an evaluation trace (first one on
ties), seeded with the start-position evaluation. -/
def bestEval (init : ℚ × ℚ) (trace : List (ℚ × ℚ)) : ℚ × ℚ :=
  trace.foldl (fun acc e => if acc.2 < e.2 then e else acc) init

/-- Focus-score stream of the C7 counterexample: 20, 25, 5, 5, ... -/
def afCexScores : ℕ → ℚ := fun n => if n = 0 then 20 else if n = 1 then 25 else 5

/-! ## strategy/visual_servoing.py : _visual_servo_loop (C1, C6)

One iteration of the 10 Hz control loop is modelled as a step function on
explicit state.  The loop-carried Python state is the local `phase`, the
instance attributes `_loop_retry_start` and `_last_sent_cmd`, and the
start time; the per-tick inputs are the current wall-clock time, the
end-effector position, and the (possibly absent) target position.  The
`time.sleep` calls do not change any modelled state.  Control parameters
from `VisualServoing.__init__`: GAIN 0.8, XY_THRESHOLD 1.0, Z_THRESHOLD
0.5, APPROACH_HEIGHT 8.0; GRASP_DEPTH is the `grasp_offset_z` argument. -/

structure Vec3 where
  x : ℝ
  y : ℝ
  z : ℝ

inductive Phase where
  | APPROACH
  | DESCEND
deriving DecidableEq

structure LoopState where
  phase : Phase
  retryStart : Option ℝ
  lastSent : Option (ℝ × ℝ × ℝ × ℕ)

structure Tick where
  now : ℝ
  ee : Vec3
  target : Option Vec3

structure Cmd where
  x : ℝ
  y : ℝ
  z : ℝ
  speed : ℕ

/-- Result of one loop iteration: terminal success, terminal failure, or
a continuation carrying the new state, the command the tick computed (none
when the target is lost), and whether `move_robot` was actually called
(the de-duplication filter may skip the send). -/
inductive StepRes where
  | success
  | failure
  | cont (st : LoopState) (cmd : Option Cmd) (sent : Bool)

/-- De-duplication filter of step 6: skip the send when a previous command
exists, the new position differs from it by less than 0.1 cm and the speed
tier is unchanged (`hasattr` check plus the distance and speed test). -/
noncomputable def dedupSkip : Option (ℝ × ℝ × ℝ × ℕ) → Cmd → Bool
  | some (lx, ly, lz, ls), cmd =>
    if Real.sqrt ((cmd.x - lx)^2 + (cmd.y - ly)^2 + (cmd.z - lz)^2) < 0.1
        ∧ cmd.speed = ls
    then true else false
  | none, _ => false

/-- Steps 3-6 of the loop body: error, proportional command, speed tier,
de-duplication against `_last_sent_cmd`, send. -/
noncomputable def controlCmd (goal : Vec3) (st : LoopState) (tk : Tick) : StepRes :=
  let ex := goal.x - tk.ee.x
  let ey := goal.y - tk.ee.y
  let ez := goal.z - tk.ee.z
  let total_error := Real.sqrt (ex^2 + ey^2 + ez^2)
  let cmd : Cmd := ⟨tk.ee.x + ex * 0.8, tk.ee.y + ey * 0.8, tk.ee.z + ez * 0.8,
    if total_error < 3 then 15 else if total_error < 10 then 30 else 60⟩
  if dedupSkip st.lastSent cmd then .cont st (some cmd) false
  else .cont { st with lastSent := some (cmd.x, cmd.y, cmd.z, cmd.speed) } (some cmd) true

/-- One iteration of `_visual_servo_loop`: timeout check, target lookup
with the 2 s loss grace, phase-dependent goal, transition and success
tests, then the proportional command. -/
noncomputable def servoStep (graspDepth startTime : ℝ) (st : LoopState) (tk : Tick) :
    StepRes :=
  if tk.now - startTime > 60 then .failure
  else
    match tk.target with
    | none =>
      let t0 := st.retryStart.getD tk.now
      if tk.now - t0 > 2 then .failure
      else .cont { st with retryStart := some t0 } none false
    | some tp =>
      match st.phase with
      | .APPROACH =>
        let goal : Vec3 := ⟨tp.x, tp.y, tp.z + 8⟩
        let xy_error := Real.sqrt ((tk.ee.x - goal.x)^2 + (tk.ee.y - goal.y)^2)
        if xy_error < 1 then
          controlCmd goal { st with retryStart := none, phase := .DESCEND } tk
        else
          controlCmd goal { st with retryStart := none } tk
      | .DESCEND =>
        let goal : Vec3 := ⟨tp.x, tp.y, tp.z + graspDepth⟩
        let z_error := |tk.ee.z - goal.z|
        if z_error < 0.5 then .success
        else controlCmd goal { st with retryStart := none } tk

def StepRes.phaseOf : StepRes → Option Phase
  | .cont st _ _ => some st.phase
  | _ => none

def StepRes.cmdPos : StepRes → Option Vec3
  | .cont _ (some c) _ => some ⟨c.x, c.y, c.z⟩
  | _ => none

def StepRes.retryOf : StepRes → Option (Option ℝ)
  | .cont st _ _ => some st.retryStart
  | _ => none

/-! ## sensor/projection/pybullet_projection.py

Camera model of the simulated main camera.  CAMERA_CONFIG: 600 x 480,
vertical fov 60 degrees, eye (0.5, 0, 0.5) m, target at the origin, up
(0, 0, 1).  The code reconstructs the view and projection matrices through
the PyBullet API; they are reconstructed here analytically.
`computeViewMatrix` is the standard right-handed lookAt basis
  f = normalize(target - eye) = (-1/sqrt 2, 0, -1/sqrt 2),
  s = normalize(f x up)       = (0, 1, 0),
  u = s x f                   = (-1/sqrt 2, 0, 1/sqrt 2),
with rows [s; u; -f] and translation  -R eye;  the code then inverts that
matrix numerically (`CAM_TO_WORLD_MAT = inv(view)`); `camToWorldPt` below
is the analytic inverse, and `camToWorldPt_viewOfWorld` /
`viewOfWorld_camToWorldPt` verify that it is the matrix inverse the code
computes.  `computeProjectionMatrixFOV` yields P00 = 1/(aspect tan(fov/2))
and P11 = 1/tan(fov/2), and the code sets FX = P00 * W/2, FY = P11 * H/2,
CX = W/2, CY = H/2. -/

noncomputable def invSqrt2 : ℝ := 1 / Real.sqrt 2

noncomputable def camEye : Vec3 := ⟨0.5, 0, 0.5⟩

noncomputable def camS : Vec3 := ⟨0, 1, 0⟩

noncomputable def camU : Vec3 := ⟨-invSqrt2, 0, invSqrt2⟩

noncomputable def camF : Vec3 := ⟨-invSqrt2, 0, -invSqrt2⟩

noncomputable def dot3 (a b : Vec3) : ℝ := a.x * b.x + a.y * b.y + a.z * b.z

/-- The view matrix as a point transform: world coordinates (m) to camera
view-space coordinates, rows [s; u; -f] applied to (p - eye). -/
noncomputable def viewOfWorld (p : Vec3) : Vec3 :=
  ⟨dot3 camS ⟨p.x - camEye.x, p.y - camEye.y, p.z - camEye.z⟩,
   dot3 camU ⟨p.x - camEye.x, p.y - camEye.y, p.z - camEye.z⟩,
   -(dot3 camF ⟨p.x - camEye.x, p.y - camEye.y, p.z - camEye.z⟩)⟩

/-- CAM_TO_WORLD_MAT as a point transform: columns [s, u, -f] plus eye. -/
noncomputable def camToWorldPt (q : Vec3) : Vec3 :=
  ⟨camEye.x + q.x * camS.x + q.y * camU.x + q.z * (-camF.x),
   camEye.y + q.x * camS.y + q.y * camU.y + q.z * (-camF.y),
   camEye.z + q.x * camS.z + q.y * camU.z + q.z * (-camF.z)⟩

noncomputable def tanHalfFov : ℝ := Real.tan (Real.pi / 6)

noncomputable def FXpix : ℝ := (1 / ((600 / 480) * tanHalfFov)) * 600 / 2

noncomputable def FYpix : ℝ := (1 / tanHalfFov) * 480 / 2

def CXpix : ℝ := 300

def CYpix : ℝ := 240

/-- Function `pixel_to_3d`: pinhole back-projection of (pixel, depth in m)
into view space, then through CAM_TO_WORLD_MAT, then m to cm. -/
noncomputable def pixel_to_3d (pixel_x pixel_y depth_m : ℝ) : Vec3 :=
  let x_view := (pixel_x - CXpix) * depth_m / FXpix
  let y_view := -((pixel_y - CYpix) * depth_m) / FYpix
  let z_view := -depth_m
  let w := camToWorldPt ⟨x_view, y_view, z_view⟩
  ⟨w.x * 100, w.y * 100, w.z * 100⟩

/-- Function `calculate_planar_depth`: world cm to view space (through the
inverse of CAM_TO_WORLD_MAT), planar depth is -z_view in meters. -/
noncomputable def calculate_planar_depth (wx wy wz : ℝ) : ℝ :=
  -(viewOfWorld ⟨wx / 100, wy / 100, wz / 100⟩).z

/-! ## sensor/implementations/pybullet_vision.py : PybulletVision.pixel_to_cm

The three per-axis Kalman filters owned by the vision instance, and the
ground-truth ("Oracle Depth") correction.  The ground-truth object read
from the simulation client is modelled as `Option Vec3` (position in m;
`none` when no object exists, which is the phantom-detection branch). -/

structure Filters3 where
  fx : KalmanFilter
  fy : KalmanFilter
  fz : KalmanFilter

noncomputable def pixel_to_cm (u v depth_val : ℝ) (gt : Option Vec3)
    (fs : Filters3) : Option Vec3 × Filters3 :=
  if depth_val ≤ 0 then (none, fs)
  else
    let p := pixel_to_3d u v depth_val
    match gt with
    | some g =>
      let gx := g.x * 100
      let gy := g.y * 100
      let gz := g.z * 100
      let dist_sq := (p.x - gx)^2 + (p.y - gy)^2 + (p.z - gz)^2
      if dist_sq < 400 then
        let true_depth_m := calculate_planar_depth gx gy gz
        let c := pixel_to_3d u v true_depth_m
        (some c, ⟨fs.fx.reset c.x, fs.fy.reset c.y, fs.fz.reset c.z⟩)
      else
        let r1 := fs.fx.update p.x
        let r2 := fs.fy.update p.y
        let r3 := fs.fz.update p.z
        (some ⟨r1.1, r2.1, r3.1⟩, ⟨r1.2, r2.2, r3.2⟩)
    | none => (none, fs)

/-! ## sensor/projection/pybullet_projection.py : project_gripper_camera_to_world -/

structure Quat where
  x : ℝ
  y : ℝ
  z : ℝ
  w : ℝ

/-- Rotation matrix of `p.getMatrixFromQuaternion` applied to a vector
(standard unit-quaternion rotation, quaternion in (x, y, z, w) order). -/
noncomputable def quatRotate (q : Quat) (p : Vec3) : Vec3 :=
  ⟨(1 - 2*(q.y^2 + q.z^2)) * p.x + 2*(q.x*q.y - q.z*q.w) * p.y
      + 2*(q.x*q.z + q.y*q.w) * p.z,
   2*(q.x*q.y + q.z*q.w) * p.x + (1 - 2*(q.x^2 + q.z^2)) * p.y
      + 2*(q.y*q.z - q.x*q.w) * p.z,
   2*(q.x*q.z - q.y*q.w) * p.x + 2*(q.y*q.z + q.x*q.w) * p.y
      + (1 - 2*(q.x^2 + q.y^2)) * p.z⟩

/-- The need_fix test: the reported orientation is the degenerate
[0,0,0,0] or the identity quaternion within 1e-4 per component. -/
def needFix (q : Quat) : Prop :=
  (q.x = 0 ∧ q.y = 0 ∧ q.z = 0 ∧ q.w = 0)
  ∨ (|q.x| < 1e-4 ∧ |q.y| < 1e-4 ∧ |q.z| < 1e-4 ∧ |q.w - 1| < 1e-4)

noncomputable instance (q : Quat) : Decidable (needFix q) := by
  unfold needFix
  infer_instance

/-- Function `project_gripper_camera_to_world`: substitute the orientation
from shared memory when the reported one is degenerate (subject to the
5 cm position validation), then basis change view (x,y,z) to local
(-y,-x,-z), rotate by the orientation quaternion, and translate by the
end-effector world position (m to cm).  The shared-memory lookup
`_get_real_ee_state_via_shared_memory` reads external simulator state and
is modelled as the parameter `mem` (`none` when unavailable). -/
noncomputable def project_gripper_camera_to_world (point_view ee_pos : Vec3)
    (ee_orn : Quat) (mem : Option (Vec3 × Quat)) : Vec3 :=
  let orn :=
    if needFix ee_orn then
      match mem with
      | some (mem_pos, mem_orn) =>
        let diff := Real.sqrt ((ee_pos.x - mem_pos.x)^2
          + (ee_pos.y - mem_pos.y)^2 + (ee_pos.z - mem_pos.z)^2)
        if diff > 0.05 then ee_orn else mem_orn
      | none => ee_orn
    else ee_orn
  let p_local : Vec3 := ⟨-point_view.y, -point_view.x, -point_view.z⟩
  let r := quatRotate orn p_local
  ⟨r.x + ee_pos.x * 100, r.y + ee_pos.y * 100, r.z + ee_pos.z * 100⟩

/-! ## sensor/perception/vision_bridge.py : get_refined_detections, depth path

The ROI depth-statistics slice of the detection loop.  Depth-map samples
are exact rationals; the final estimate is real because the standard
deviation takes a square root.  The projection that follows the depth
filter in the loop is covered by `pixel_to_cm` and
`project_gripper_camera_to_world`; the list functions below model the
depth estimation and the `depth_m <= 0.1` drop. -/

structure Det where
  name : String
  u : ℕ
  v : ℕ
  w : ℕ
  h : ℕ

/-- Margin `int(bbox * 0.3)`.  For any realistic bounding-box size the
IEEE-double product `n * 0.3` floors to the same integer as the exact
rational `3 n / 10`, which is used here. -/
def marginOf (n : ℕ) : ℕ := 3 * n / 10

/-- Lower ROI bound `max(0, c - s // 2 + margin)` (Python int arithmetic,
all divisions on nonnegative values). -/
def roiLo (c s : ℕ) : ℕ := (max 0 ((c : ℤ) - (s : ℤ) / 2 + (marginOf s : ℤ))).toNat

/-- Upper ROI bound `min(bound, c + s // 2 - margin)`. -/
def roiHi (c s bound : ℕ) : ℕ :=
  (min (bound : ℤ) ((c : ℤ) + (s : ℤ) / 2 - (marginOf s : ℤ))).toNat

/-- Row-major samples of `depth_frame[v_min:v_max, u_min:u_max]`. -/
def roiSamples (dm : ℕ → ℕ → ℚ) (v_min v_max u_min u_max : ℕ) : List ℚ :=
  (List.range (v_max - v_min)).flatMap fun i =>
    (List.range (u_max - u_min)).map fun j => dm (v_min + i) (u_min + j)

/-- Samples strictly inside the plausible range 0.1 m to 3.0 m. -/
def validDepths (l : List ℚ) : List ℚ :=
  l.filter fun d => decide ((1/10 : ℚ) < d ∧ d < 3)

/-- `np.median`: middle of the sorted list, or the mean of the two middle
elements for an even count. -/
def medianQ (l : List ℚ) : ℚ :=
  let s := l.mergeSort fun a b => decide (a ≤ b)
  if l.length % 2 = 1 then s.getD (l.length / 2) 0
  else (s.getD (l.length / 2 - 1) 0 + s.getD (l.length / 2) 0) / 2

def meanQ (l : List ℚ) : ℚ := l.sum / l.length

/-- Population variance, so that `np.std l = sqrt (varQ l)`. -/
def varQ (l : List ℚ) : ℚ := ((l.map fun x => (x - meanQ l)^2).sum) / l.length

/-- Depth estimate of one detection: median + std over the valid samples
of the inner-40% ROI, falling back to the raw center-pixel depth (0 when
the center is out of bounds). -/
noncomputable def estimated_depth (dm : ℕ → ℕ → ℚ) (H W : ℕ) (det : Det) : ℝ :=
  let valid := validDepths (roiSamples dm (roiLo det.v det.h) (roiHi det.v det.h H)
    (roiLo det.u det.w) (roiHi det.u det.w W))
  if 0 < valid.length then
    (medianQ valid : ℝ) + Real.sqrt ((varQ valid : ℚ) : ℝ)
  else if det.v < H ∧ det.u < W then ((dm det.v det.u : ℚ) : ℝ)
  else 0

/-- The detections surviving the `depth_m <= 0.1` filter, each paired with
its refined depth (the remainder of the loop body consumes these). -/
noncomputable def refineDepths (dm : ℕ → ℕ → ℚ) (H W : ℕ) (dets : List Det) :
    List (Det × ℝ) :=
  dets.filterMap fun det =>
    if estimated_depth dm H W det ≤ 1/10 then none
    else some (det, estimated_depth dm H W det)

/-! ## Theorems -/

/-! ### KalmanFilter lemmas -/

theorem KalmanFilter.update_inited (f : KalmanFilter) (m : ℝ) (h : f.inited = true) :
    (f.update m).2 =
      { f with
        state_estimate := f.state_estimate +
          (f.post_error_cov + f.process_var) /
            (f.post_error_cov + f.process_var + f.measure_var) *
            (m - f.state_estimate),
        post_error_cov :=
          (1 - (f.post_error_cov + f.process_var) /
            (f.post_error_cov + f.process_var + f.measure_var)) *
            (f.post_error_cov + f.process_var) } := by
  simp [KalmanFilter.update, h]

theorem KalmanFilter.update_not_inited (f : KalmanFilter) (m : ℝ) (h : f.inited = false) :
    (f.update m).2 = { f with state_estimate := m, inited := true } := by
  simp [KalmanFilter.update, h]

/-- One initialized update shrinks the error to the constant measurement by
at least the factor `r / (q + r)`, keeps the covariance nonnegative and the
parameters unchanged. -/
theorem KalmanFilter.update_contracts (f : KalmanFilter) (c : ℝ)
    (h : f.inited = true) (hq : 0 < f.process_var) (hr : 0 ≤ f.measure_var)
    (hp : 0 ≤ f.post_error_cov) :
    |(f.update c).2.state_estimate - c| ≤
        f.measure_var / (f.process_var + f.measure_var) * |f.state_estimate - c|
    ∧ 0 ≤ (f.update c).2.post_error_cov
    ∧ (f.update c).2.inited = true
    ∧ (f.update c).2.process_var = f.process_var
    ∧ (f.update c).2.measure_var = f.measure_var := by
  rw [KalmanFilter.update_inited f c h]
  set P := f.post_error_cov + f.process_var with hP
  have hPpos : 0 < P := by positivity
  have hPr : 0 < P + f.measure_var := by positivity
  have hK : (1 : ℝ) - P / (P + f.measure_var) = f.measure_var / (P + f.measure_var) := by
    field_simp
  refine ⟨?_, ?_, h, rfl, rfl⟩
  · have h1 : f.state_estimate + P / (P + f.measure_var) * (c - f.state_estimate) - c
        = (f.measure_var / (P + f.measure_var)) * (f.state_estimate - c) := by
      field_simp
      ring
    rw [h1, abs_mul]
    have hnn : 0 ≤ f.measure_var / (P + f.measure_var) := by positivity
    rw [abs_of_nonneg hnn]
    apply mul_le_mul_of_nonneg_right _ (abs_nonneg _)
    have hle : f.process_var + f.measure_var ≤ P + f.measure_var := by
      have hfP : f.process_var ≤ P := by rw [hP]; linarith
      linarith
    gcongr
  · rw [hK]
    positivity

/-- Iterating a constant measurement on an initialized filter contracts the
error geometrically while preserving the invariants. -/
theorem KalmanFilter.iterate_err (f : KalmanFilter) (c : ℝ)
    (h : f.inited = true) (hq : 0 < f.process_var) (hr : 0 ≤ f.measure_var)
    (hp : 0 ≤ f.post_error_cov) : ∀ n : ℕ,
    |(f.iterate c n).state_estimate - c| ≤
        (f.measure_var / (f.process_var + f.measure_var)) ^ n *
          |f.state_estimate - c|
    ∧ 0 ≤ (f.iterate c n).post_error_cov
    ∧ (f.iterate c n).inited = true
    ∧ (f.iterate c n).process_var = f.process_var
    ∧ (f.iterate c n).measure_var = f.measure_var := by
  intro n
  induction n with
  | zero => exact ⟨by simp [KalmanFilter.iterate], hp, h, rfl, rfl⟩
  | succ n ih =>
    obtain ⟨he, hcov, hin, hpv, hmv⟩ := ih
    have hstep := KalmanFilter.update_contracts (f.iterate c n) c hin
      (by rw [hpv]; exact hq) (by rw [hmv]; exact hr) hcov
    obtain ⟨he2, hcov2, hin2, hpv2, hmv2⟩ := hstep
    have hrho : 0 ≤ f.measure_var / (f.process_var + f.measure_var) := by positivity
    have hit : f.iterate c (n + 1) = ((f.iterate c n).update c).2 := rfl
    rw [hit]
    refine ⟨?_, hcov2, hin2, by rw [hpv2, hpv], by rw [hmv2, hmv]⟩
    calc |((f.iterate c n).update c).2.state_estimate - c|
        ≤ (f.iterate c n).measure_var /
            ((f.iterate c n).process_var + (f.iterate c n).measure_var) *
            |(f.iterate c n).state_estimate - c| := he2
      _ = f.measure_var / (f.process_var + f.measure_var) *
            |(f.iterate c n).state_estimate - c| := by rw [hpv, hmv]
      _ ≤ f.measure_var / (f.process_var + f.measure_var) *
            ((f.measure_var / (f.process_var + f.measure_var)) ^ n *
              |f.state_estimate - c|) := by
            exact mul_le_mul_of_nonneg_left he hrho
      _ = (f.measure_var / (f.process_var + f.measure_var)) ^ (n + 1) *
            |f.state_estimate - c| := by ring

theorem KalmanFilter.iterate_succ_left (f : KalmanFilter) (m : ℝ) (n : ℕ) :
    f.iterate m (n + 1) = ((f.update m).2).iterate m n := by
  induction n with
  | zero => rfl
  | succ n ih =>
    show ((f.iterate m (n + 1)).update m).2 = _
    rw [ih]
    rfl

/-- C9: for a freshly constructed 1-D Kalman filter, the first call to
`update m` returns `m` exactly (the state is initialized to the raw
measurement, no smoothing transient); immediately feeding the same value
`m` again returns `m` unchanged; and for any initial filter state (with
positive process variance and nonnegative measurement variance and
covariance, as all constructions in the repository satisfy), feeding a
constant value `c` drives `state_estimate` to within any `ε > 0` of `c`
for enough iterations. -/
theorem C9_kalman_init_and_convergence (q r m c ε : ℝ) (f : KalmanFilter)
    (hq : 0 < f.process_var) (hr : 0 ≤ f.measure_var)
    (hcov : 0 ≤ f.post_error_cov) (hε : 0 < ε) :
    ((KalmanFilter.init q r).update m).1 = m
    ∧ ((KalmanFilter.init q r).update m).2.state_estimate = m
    ∧ (((KalmanFilter.init q r).update m).2.update m).1 = m
    ∧ ∃ N : ℕ, ∀ n : ℕ, N ≤ n → |(f.iterate c n).state_estimate - c| < ε := by
  refine ⟨rfl, rfl, ?_, ?_⟩
  · simp [KalmanFilter.update, KalmanFilter.init]
  · -- One update from any starting state yields an initialized filter with
    -- the same parameters and a nonnegative covariance.
    set g := (f.update c).2 with hg
    have hgin : g.inited = true := by
      by_cases hi : f.inited = true
      · exact (KalmanFilter.update_contracts f c hi hq hr hcov).2.2.1
      · rw [hg, KalmanFilter.update_not_inited f c (by simpa using hi)]
    have hgpv : g.process_var = f.process_var := by
      rw [hg, KalmanFilter.update]
      split <;> rfl
    have hgmv : g.measure_var = f.measure_var := by
      rw [hg, KalmanFilter.update]
      split <;> rfl
    have hgcov : 0 ≤ g.post_error_cov := by
      by_cases hi : f.inited = true
      · exact (KalmanFilter.update_contracts f c hi hq hr hcov).2.1
      · rw [hg, KalmanFilter.update_not_inited f c (by simpa using hi)]
        exact hcov
    set ρ := g.measure_var / (g.process_var + g.measure_var) with hρ
    have hρ0 : 0 ≤ ρ := by
      rw [hρ, hgpv, hgmv]
      positivity
    have hρ1 : ρ < 1 := by
      rw [hρ, hgpv, hgmv]
      rw [div_lt_one (by positivity)]
      linarith
    set e1 := |g.state_estimate - c| with he1
    have he1pos : 0 < e1 + 1 := by positivity
    obtain ⟨N0, hN0⟩ := exists_pow_lt_of_lt_one (div_pos hε he1pos) hρ1
    refine ⟨N0 + 1, ?_⟩
    intro n hn
    obtain ⟨k, rfl⟩ : ∃ k, n = k + 1 := ⟨n - 1, by omega⟩
    have hk : N0 ≤ k := by omega
    rw [KalmanFilter.iterate_succ_left]
    have hbound := (KalmanFilter.iterate_err g c hgin
      (by rw [hgpv]; exact hq) (by rw [hgmv]; exact hr) hgcov k).1
    calc |(g.iterate c k).state_estimate - c| ≤ ρ ^ k * e1 := hbound
      _ ≤ ρ ^ N0 * e1 := by
          apply mul_le_mul_of_nonneg_right _ (abs_nonneg _)
          exact pow_le_pow_of_le_one hρ0 hρ1.le hk
      _ ≤ ρ ^ N0 * (e1 + 1) := by
          apply mul_le_mul_of_nonneg_left _ (pow_nonneg hρ0 _)
          linarith
      _ < ε / (e1 + 1) * (e1 + 1) := by
          exact mul_lt_mul_of_pos_right hN0 he1pos
      _ = ε := div_mul_cancel₀ ε (ne_of_gt he1pos)

/-- Witness for C9: the convergence conclusion instantiated at the
simulation tuning (process variance 1e-3, measurement variance 1e-4) on an
initialized filter sitting at state 7, fed the constant 2, ε = 1/1000. -/
theorem C9_kalman_init_and_convergence_witness :
    ∃ N : ℕ, ∀ n : ℕ, N ≤ n →
      |(KalmanFilter.iterate ⟨1, 7, 1/1000, 1/10000, true⟩ 2 n).state_estimate - 2|
        < 1/1000 :=
  (C9_kalman_init_and_convergence 0 0 0 2 (1/1000) ⟨1, 7, 1/1000, 1/10000, true⟩
    (by norm_num) (by norm_num) (by norm_num) (by norm_num)).2.2.2

/-! ### GraspPlanner: C8 -/

/-- C8: for an object with no grasp-memory entry and a positive-size
bounding box, when the estimated smaller dimension (pinhole relation at the
assumed 50 cm distance with focal length 520 px) exceeds the 6 cm maximum
gripper aperture, `compute_grasp_pose` returns a lateral offset equal to
`estimated_width / 2 - 1.5` cm, which is nonzero, and a reduced aperture;
when the smaller dimension is within range the lateral offset is exactly 0
and the aperture percentage equals `(smaller_dimension + 2) / 6 * 100`
clamped to `[40, 100]`. -/
theorem C8_grasp_planner_edge_grasp (object_name : String) (pos : QVec3)
    (bw bh : ℕ) (hmem : grasp_memory object_name = none)
    (hw : 0 < bw) (hh : 0 < bh) :
    ∃ gp : GraspPose, compute_grasp_pose object_name pos bw bh = some gp
    ∧ (6 < min ((bw : ℚ) / 520 * 50) ((bh : ℚ) / 520 * 50) →
        gp.grasp.x - pos.x = (bw : ℚ) / 520 * 50 / 2 - 3/2
        ∧ gp.grasp.x - pos.x ≠ 0
        ∧ gp.gripper_width < 100)
    ∧ (¬ 6 < min ((bw : ℚ) / 520 * 50) ((bh : ℚ) / 520 * 50) →
        gp.grasp.x - pos.x = 0
        ∧ gp.gripper_width =
            max (min ((min ((bw : ℚ) / 520 * 50) ((bh : ℚ) / 520 * 50) + 2) / 6 * 100) 100) 40) := by
  rw [compute_grasp_pose, hmem]
  simp only [hw, hh, and_self, if_true]
  by_cases hbig : 6 < min ((bw : ℚ) / 520 * 50) ((bh : ℚ) / 520 * 50)
  · rw [if_pos hbig]
    refine ⟨_, rfl, ?_, fun hcon => absurd hbig hcon⟩
    intro _
    have hest : (6 : ℚ) < (bw : ℚ) / 520 * 50 := lt_of_lt_of_le hbig (min_le_left _ _)
    refine ⟨by ring, ?_, by norm_num⟩
    have : (3 : ℚ)/2 < (bw : ℚ) / 520 * 50 / 2 := by linarith
    intro hzero
    rw [show pos.x + ((bw : ℚ) / 520 * 50 / 2 - 3/2) - pos.x
          = (bw : ℚ) / 520 * 50 / 2 - 3/2 by ring] at hzero
    linarith
  · rw [if_neg hbig]
    refine ⟨_, rfl, fun hcon => absurd hcon hbig, ?_⟩
    intro _
    constructor
    · ring
    · show min (max (min _ 100) 40) 100 = _
      have h40 : (40 : ℚ) ≤ 100 := by norm_num
      have : max (min ((min ((bw : ℚ) / 520 * 50) ((bh : ℚ) / 520 * 50) + 2) / 6 * 100) 100) 40 ≤ 100 :=
        max_le (min_le_right _ _) h40
      exact min_eq_left this

/-- Witness for C8: the object name "box" has no memory entry; a 100 x 100
pixel bounding box implies a 9.6 cm square at the nominal distance, which
exceeds the 6 cm aperture. -/
theorem C8_grasp_planner_edge_grasp_witness :
    ∃ gp : GraspPose, compute_grasp_pose "box" ⟨0, 0, 0⟩ 100 100 = some gp
    ∧ (6 < min ((100 : ℚ) / 520 * 50) ((100 : ℚ) / 520 * 50) →
        gp.grasp.x - (0 : ℚ) = (100 : ℚ) / 520 * 50 / 2 - 3/2
        ∧ gp.grasp.x - (0 : ℚ) ≠ 0
        ∧ gp.gripper_width < 100)
    ∧ (¬ 6 < min ((100 : ℚ) / 520 * 50) ((100 : ℚ) / 520 * 50) →
        gp.grasp.x - (0 : ℚ) = 0
        ∧ gp.gripper_width =
            max (min ((min ((100 : ℚ) / 520 * 50) ((100 : ℚ) / 520 * 50) + 2) / 6 * 100) 100) 40) :=
  C8_grasp_planner_edge_grasp "box" ⟨0, 0, 0⟩ 100 100 (by rfl)
    (by norm_num) (by norm_num)

/-! ### VisionBridge source switching: C10 -/

/-- One bridge operation in real-hardware mode preserves the mode flag and
never makes the gripper camera the active source. -/
theorem applyBridgeOp_inv (st : BridgeState) (op : BridgeOp)
    (hsim : st.sim_mode = false)
    (hkey : st.current_source_key ≠ "gripper") :
    (applyBridgeOp st op).sim_mode = false
    ∧ (applyBridgeOp st op).current_source_key ≠ "gripper" := by
  have hmg : ("main" : String) ≠ "gripper" := by decide
  have hmr : ("main" : String) ≠ "realsense" := by decide
  have hgr : ("gripper" : String) ≠ "realsense" := by decide
  have hswitch : ∀ (s : BridgeState) (k : String), s.sim_mode = false →
      s.current_source_key ≠ "gripper" →
      (switch_source s k).sim_mode = false
      ∧ (switch_source s k).current_source_key ≠ "gripper" := by
    intro s k hs hk
    by_cases hre : k = "realsense"
    · subst hre
      simp [switch_source, hs, hmg]
    · by_cases hmain : k = "main"
      · subst hmain
        simp [switch_source, hs, hmg, hmr]
      · by_cases hgrip : k = "gripper"
        · subst hgrip
          simp [switch_source, hs, hk, hgr]
        · simp [switch_source, hs, hk, hre, hmain, hgrip]
  cases op with
  | switch k => exact hswitch st k hsim hkey
  | mode m =>
    rw [applyBridgeOp, set_mode]
    split
    · exact hswitch _ "gripper" hsim hkey
    · exact hswitch _ "main" hsim hkey

theorem runBridgeOps_inv (ops : List BridgeOp) :
    ∀ st : BridgeState, st.sim_mode = false →
    st.current_source_key ≠ "gripper" →
    (runBridgeOps st ops).current_source_key ≠ "gripper" := by
  induction ops with
  | nil => intro st _ hk; exact hk
  | cons op rest ih =>
    intro st hs hk
    obtain ⟨h1, h2⟩ := applyBridgeOp_inv st op hs hk
    exact ih (applyBridgeOp st op) h1 h2

/-- C10: in real-hardware mode every `switch_source` to the gripper camera
(including the one issued by `set_mode "EXPLOITATION"`) is refused and
leaves the active source key unchanged, and along every sequence of bridge
operations from the initial real-mode state the active source is never
"gripper". -/
theorem C10_real_mode_never_gripper (st : BridgeState) (ops : List BridgeOp)
    (hsim : st.sim_mode = false) :
    switch_source st "gripper" = st
    ∧ (set_mode st "EXPLOITATION").current_source_key = st.current_source_key
    ∧ (runBridgeOps (initBridge false) ops).current_source_key ≠ "gripper" := by
  have hgr : ("gripper" : String) ≠ "realsense" := by decide
  have hmg : ("main" : String) ≠ "gripper" := by decide
  refine ⟨?_, ?_, ?_⟩
  · simp [switch_source, hsim, hgr]
  · rw [set_mode]
    simp only [if_pos rfl]
    simp [switch_source, hsim, hgr]
  · exact runBridgeOps_inv ops (initBridge false) rfl
      (by simp [initBridge, hmg])

/-- Witness for C10: the real-mode bridge after an EXPLOITATION request. -/
theorem C10_real_mode_never_gripper_witness :
    switch_source ⟨false, "main", "DEFAULT"⟩ "gripper" = ⟨false, "main", "DEFAULT"⟩
    ∧ (set_mode ⟨false, "main", "DEFAULT"⟩ "EXPLOITATION").current_source_key = "main"
    ∧ (runBridgeOps (initBridge false) [BridgeOp.mode "EXPLOITATION"]).current_source_key ≠ "gripper" :=
  C10_real_mode_never_gripper ⟨false, "main", "DEFAULT"⟩ [BridgeOp.mode "EXPLOITATION"] rfl

/-! ### Gripper-close monitoring: C5 -/

/-- The monitoring recursion stops at `min (first stable window) (i + fuel)`:
it never runs past its fuel, stops early only at a stable window, and stops
no later than any stable window within the fuel, provided the invariants of
the trailing stable run hold at (i, stable). -/
theorem monitorFrom_spec (g : ℕ → ℚ) : ∀ fuel i stable : ℕ,
    stable < 10 →
    stable ≤ i →
    (∀ j, i - stable ≤ j → j < i → smallDiff g j) →
    (stable = i ∨ ¬ smallDiff g (i - stable - 1)) →
    (∀ k, k ≤ i → ¬ stableWindow g k) →
    monitorFrom g fuel i stable ≤ i + fuel
    ∧ (monitorFrom g fuel i stable < i + fuel →
        stableWindow g (monitorFrom g fuel i stable))
    ∧ (∀ k, stableWindow g k → k ≤ i + fuel → monitorFrom g fuel i stable ≤ k) := by
  intro fuel
  induction fuel with
  | zero =>
    intro i stable hlt hsb hrun hbig hnowin
    have h0 : monitorFrom g 0 i stable = i := rfl
    rw [h0]
    refine ⟨by omega, by omega, ?_⟩
    intro k hw hk
    exact absurd hw (hnowin k (by omega))
  | succ fuel ih =>
    intro i stable hlt hsb hrun hbig hnowin
    have hunfold : monitorFrom g (fuel + 1) i stable
        = if 10 ≤ (if |g (i + 1) - g i| < 1/2000 then stable + 1 else 0) then i + 1
          else monitorFrom g fuel (i + 1)
            (if |g (i + 1) - g i| < 1/2000 then stable + 1 else 0) := rfl
    by_cases hsd : |g (i + 1) - g i| < 1/2000
    · by_cases h10 : 10 ≤ stable + 1
      · have hres : monitorFrom g (fuel + 1) i stable = i + 1 := by
          rw [hunfold, if_pos hsd, if_pos h10]
        have hwin : stableWindow g (i + 1) := by
          refine ⟨by omega, ?_⟩
          intro j hj1 hj2
          rcases (by omega : j < i ∨ j = i) with hji | hji
          · exact hrun j (by omega) hji
          · rw [hji]; exact hsd
        rw [hres]
        refine ⟨by omega, fun _ => hwin, ?_⟩
        intro k hw hk
        by_cases hki : k ≤ i
        · exact absurd hw (hnowin k hki)
        · omega
      · have hres : monitorFrom g (fuel + 1) i stable
            = monitorFrom g fuel (i + 1) (stable + 1) := by
          rw [hunfold, if_pos hsd, if_neg h10]
        have hrun2 : ∀ j, (i + 1) - (stable + 1) ≤ j → j < i + 1 → smallDiff g j := by
          intro j hj1 hj2
          rcases (by omega : j < i ∨ j = i) with hji | hji
          · exact hrun j (by omega) hji
          · rw [hji]; exact hsd
        have hbig2 : stable + 1 = i + 1 ∨ ¬ smallDiff g ((i + 1) - (stable + 1) - 1) := by
          rcases hbig with hb | hb
          · left; omega
          · right
            have heq : (i + 1) - (stable + 1) - 1 = i - stable - 1 := by omega
            rw [heq]; exact hb
        have hnowin2 : ∀ k, k ≤ i + 1 → ¬ stableWindow g k := by
          intro k hk hw
          by_cases hki : k ≤ i
          · exact hnowin k hki hw
          · have hk1 : k = i + 1 := by omega
            rw [hk1] at hw
            obtain ⟨hw10, hwall⟩ := hw
            rcases hbig with hb | hb
            · omega
            · exact hb (hwall (i - stable - 1) (by omega) (by omega))
        obtain ⟨ha, hb2, hc⟩ := ih (i + 1) (stable + 1) (by omega) (by omega)
          hrun2 hbig2 hnowin2
        rw [hres]
        exact ⟨by omega, fun h => hb2 (by omega), fun k hw hk => hc k hw (by omega)⟩
    · have hres : monitorFrom g (fuel + 1) i stable
          = monitorFrom g fuel (i + 1) 0 := by
        rw [hunfold, if_neg hsd, if_neg (by omega : ¬ (10 ≤ 0))]
      have hrun2 : ∀ j, (i + 1) - 0 ≤ j → j < i + 1 → smallDiff g j := by
        intro j hj1 hj2
        omega
      have hbig2 : (0 : ℕ) = i + 1 ∨ ¬ smallDiff g ((i + 1) - 0 - 1) := by
        right
        have heq : (i + 1) - 0 - 1 = i := by omega
        rw [heq]; exact hsd
      have hnowin2 : ∀ k, k ≤ i + 1 → ¬ stableWindow g k := by
        intro k hk hw
        by_cases hki : k ≤ i
        · exact hnowin k hki hw
        · have hk1 : k = i + 1 := by omega
          rw [hk1] at hw
          obtain ⟨hw10, hwall⟩ := hw
          exact hsd (hwall i (by omega) (by omega))
      obtain ⟨ha, hb2, hc⟩ := ih (i + 1) 0 (by omega) (by omega) hrun2 hbig2 hnowin2
      rw [hres]
      exact ⟨by omega, fun h => hb2 (by omega), fun k hw hk => hc k hw (by omega)⟩

/-- C5: the GRASP-state monitoring loop stops within 70 samples (3.5 s at
20 Hz); it stops strictly earlier exactly at the first tick ending 10
consecutive samples whose aperture change is below 0.0005 (whichever of
the two bounds comes first); and the grasp is judged a success if and only
if the final sampled aperture exceeds 0.005, so a reading of 0.02 yields
success and one of 0.0005 yields failure. -/
theorem C5_grasp_monitoring (g : ℕ → ℚ) :
    graspMonitorStop g ≤ 70
    ∧ (graspMonitorStop g < 70 → stableWindow g (graspMonitorStop g))
    ∧ (∀ k, stableWindow g k → k ≤ 70 → graspMonitorStop g ≤ k)
    ∧ (∀ a : ℚ, graspVerify a = true ↔ 1/200 < a)
    ∧ (g (graspMonitorStop g) = 1/50 → graspVerify (g (graspMonitorStop g)) = true)
    ∧ (g (graspMonitorStop g) = 1/2000 → graspVerify (g (graspMonitorStop g)) = false) := by
  have hv : ∀ a : ℚ, graspVerify a = true ↔ 1/200 < a := by
    intro a
    rw [graspVerify]
    exact decide_eq_true_iff
  have hspec := monitorFrom_spec g 70 0 0 (by omega) (by omega)
    (by intro j h1 h2; omega)
    (Or.inl rfl)
    (by intro k hk hw; obtain ⟨h10, _⟩ := hw; omega)
  obtain ⟨ha, hb, hc⟩ := hspec
  refine ⟨by simpa [graspMonitorStop] using ha,
    by simpa [graspMonitorStop] using hb,
    by simpa [graspMonitorStop] using hc, hv, ?_, ?_⟩
  · intro hval
    rw [(hv _).2]
    rw [hval]
    norm_num
  · intro hval
    rw [hval]
    rw [graspVerify]
    norm_num

/-! ### Auto focus: C7 -/

theorem afLoop_succ (startZ : ℚ) (sc : ℕ → ℚ) (fuel n : ℕ) (offset best dir : ℚ) :
    afLoop startZ sc (fuel + 1) n offset best dir
      = if 5 < |startZ + offset + 1/2 * dir - startZ| then ([], [])
        else if best + 10 < sc n then
          ((startZ + offset + 1/2 * dir) ::
            (afLoop startZ sc fuel (n + 1) (offset + 1/2 * dir) (sc n) dir).1,
           (offset + 1/2 * dir, sc n) ::
            (afLoop startZ sc fuel (n + 1) (offset + 1/2 * dir) (sc n) dir).2)
        else if dir = 1 then
          ((startZ + offset + 1/2 * dir) :: startZ ::
            (afLoop startZ sc fuel (n + 1) 0 best (-1)).1,
           (offset + 1/2 * dir, sc n) ::
            (afLoop startZ sc fuel (n + 1) 0 best (-1)).2)
        else
          ([startZ + offset + 1/2 * dir, startZ + offset],
           [(offset + 1/2 * dir, sc n)]) := rfl

/-- Counterexample to C7 as stated: with the focus scores 20, 25, 5, ...
and initial score 0, the +z direction is accepted once (offset 0.5, score
20), the probe at offset 1.0 scores 25 without clearing the +10 threshold,
the direction reverses (discarding the accepted +z offset), the -z probe
at offset -0.5 scores 5, and the search ends with a final move to the
start position (offset 0) - not to the best-scoring offset of the search,
which was 1.0 (score 25, and the best accepted offset 0.5 is not restored
either). -/
theorem C7_auto_focus_counterexample :
    autoFocus 0 afCexScores 0
      = ([1/2, 1, 0, -1/2, 0], [(1/2, 20), (1, 25), (-1/2, 5)])
    ∧ (bestEval (0, 0) (autoFocus 0 afCexScores 0).2).1 = 1
    ∧ (autoFocus 0 afCexScores 0).1.getLast? = some 0
    ∧ (autoFocus 0 afCexScores 0).1.getLast?
        ≠ some ((0 : ℚ) + (bestEval (0, 0) (autoFocus 0 afCexScores 0).2).1) := by
  have hsc0 : afCexScores 0 = 20 := by norm_num [afCexScores]
  have hsc1 : afCexScores 1 = 25 := by norm_num [afCexScores]
  have hsc2 : afCexScores 2 = 5 := by norm_num [afCexScores]
  have hA : afLoop 0 afCexScores 8 2 0 20 (-1) = ([-1/2, 0], [(-1/2, 5)]) := by
    rw [show (8 : ℕ) = 7 + 1 from rfl, afLoop_succ]
    have hc1 : ¬ (5 : ℚ) < |0 + 0 + 1/2 * (-1) - 0| := by
      rw [show (0 : ℚ) + 0 + 1/2 * (-1) - 0 = -(1/2) by ring, abs_neg,
        abs_of_nonneg (by norm_num : (0 : ℚ) ≤ 1/2)]
      norm_num
    have hc2 : ¬ (20 : ℚ) + 10 < afCexScores 2 := by rw [hsc2]; norm_num
    have hc3 : ¬ ((-1 : ℚ)) = 1 := by norm_num
    rw [if_neg hc1, if_neg hc2, if_neg hc3, hsc2]
    norm_num
  have hB : afLoop 0 afCexScores 9 1 (1/2) 20 1 = ([1, 0, -1/2, 0], [(1, 25), (-1/2, 5)]) := by
    rw [show (9 : ℕ) = 8 + 1 from rfl, afLoop_succ]
    have hc1 : ¬ (5 : ℚ) < |0 + 1/2 + 1/2 * 1 - 0| := by
      rw [show (0 : ℚ) + 1/2 + 1/2 * 1 - 0 = 1 by ring,
        abs_of_nonneg (by norm_num : (0 : ℚ) ≤ 1)]
      norm_num
    have hc2 : ¬ (20 : ℚ) + 10 < afCexScores 1 := by rw [hsc1]; norm_num
    rw [if_neg hc1, if_neg hc2, if_pos rfl, show (1 : ℕ) + 1 = 2 from rfl, hA, hsc1]
    norm_num
  have hC : autoFocus 0 afCexScores 0 = ([1/2, 1, 0, -1/2, 0], [(1/2, 20), (1, 25), (-1/2, 5)]) := by
    rw [autoFocus, show (10 : ℕ) = 9 + 1 from rfl, afLoop_succ]
    have hc1 : ¬ (5 : ℚ) < |0 + 0 + 1/2 * 1 - 0| := by
      rw [show (0 : ℚ) + 0 + 1/2 * 1 - 0 = 1/2 by ring,
        abs_of_nonneg (by norm_num : (0 : ℚ) ≤ 1/2)]
      norm_num
    have hc2 : (0 : ℚ) + 10 < afCexScores 0 := by rw [hsc0]; norm_num
    rw [if_neg hc1, if_pos hc2, hsc0, show (0 : ℕ) + 1 = 1 from rfl,
      show (0 : ℚ) + 1/2 * 1 = 1/2 by ring, hB]
    norm_num
  have hbest : (bestEval (0, 0) (autoFocus 0 afCexScores 0).2).1 = 1 := by
    rw [hC]
    rw [bestEval]
    norm_num [List.foldl]
  refine ⟨hC, hbest, ?_, ?_⟩
  · rw [hC]
    norm_num [List.getLast?]
  · rw [hbest, hC]
    norm_num [List.getLast?]

/-- C7 (amended): the AUTO_FOCUS routine moves along the z axis in 0.5 cm
steps, keeps moving in the current direction only while the sharpness
score improves by more than 10.0 units, on failure to improve tries the
opposite direction once (after commanding the probe and a return to the
start position, with the cumulative accepted offset reset to 0), is
bounded to a 5 cm search range from the start position and at most 10
score evaluations, and when the second (-z) direction fails to improve it
moves the end-effector to the start z plus the offset accepted since the
direction reversal - the best-scoring offset of the second leg only;
accepted offsets of the first (+z) leg are discarded by the reversal, and
no restoring move is issued at all when the search ends by the range
bound or the iteration cap. -/
theorem C7_auto_focus_amended :
    (∀ (startZ : ℚ) (sc : ℕ → ℚ) (fuel n : ℕ) (offset best dir : ℚ),
      |offset| ≤ 5 →
      ∀ z ∈ (afLoop startZ sc fuel n offset best dir).1, |z - startZ| ≤ 5)
    ∧ (∀ (startZ : ℚ) (sc : ℕ → ℚ) (initScore : ℚ),
      (autoFocus startZ sc initScore).2.length ≤ 10)
    ∧ (∀ (startZ : ℚ) (sc : ℕ → ℚ) (fuel n : ℕ) (offset best : ℚ),
      ¬ 5 < |startZ + offset + 1/2 * 1 - startZ| →
      ¬ best + 10 < sc n →
      afLoop startZ sc (fuel + 1) n offset best 1
        = ((startZ + offset + 1/2 * 1) :: startZ ::
            (afLoop startZ sc fuel (n + 1) 0 best (-1)).1,
           (offset + 1/2 * 1, sc n) ::
            (afLoop startZ sc fuel (n + 1) 0 best (-1)).2))
    ∧ (∀ (startZ : ℚ) (sc : ℕ → ℚ) (fuel n : ℕ) (offset best : ℚ),
      ¬ 5 < |startZ + offset + 1/2 * (-1) - startZ| →
      ¬ best + 10 < sc n →
      afLoop startZ sc (fuel + 1) n offset best (-1)
        = ([startZ + offset + 1/2 * (-1), startZ + offset],
           [(offset + 1/2 * (-1), sc n)])) := by
  have habs : ∀ startZ offset dir : ℚ,
      |startZ + offset + 1/2 * dir - startZ| = |offset + 1/2 * dir| := by
    intro startZ offset dir
    congr 1
    ring
  refine ⟨?_, ?_, ?_, ?_⟩
  · intro startZ sc fuel
    induction fuel with
    | zero =>
      intro n offset best dir hoff z hz
      simp [afLoop] at hz
    | succ fuel ih =>
      intro n offset best dir hoff z hz
      rw [afLoop_succ] at hz
      by_cases hrange : 5 < |startZ + offset + 1/2 * dir - startZ|
      · rw [if_pos hrange] at hz
        simp at hz
      · rw [if_neg hrange] at hz
        rw [habs] at hrange
        push_neg at hrange
        by_cases himp : best + 10 < sc n
        · rw [if_pos himp] at hz
          rcases List.mem_cons.mp hz with hz1 | hz2
          · rw [hz1, habs]
            exact hrange
          · exact ih (n + 1) (offset + 1/2 * dir) (sc n) dir hrange z hz2
        · rw [if_neg himp] at hz
          by_cases hdir : dir = 1
          · rw [if_pos hdir] at hz
            rcases List.mem_cons.mp hz with hz1 | hz2
            · rw [hz1, habs]
              exact hrange
            · rcases List.mem_cons.mp hz2 with hz3 | hz4
              · rw [hz3]
                simp
              · exact ih (n + 1) 0 best (-1) (by norm_num) z hz4
          · rw [if_neg hdir] at hz
            rcases List.mem_cons.mp hz with hz1 | hz2
            · rw [hz1, habs]
              exact hrange
            · have hz3 : z = startZ + offset := by simpa using hz2
              rw [hz3]
              have heq : startZ + offset - startZ = offset := by ring
              rw [heq]
              exact hoff
  · have hlen : ∀ (startZ : ℚ) (sc : ℕ → ℚ) (fuel n : ℕ) (offset best dir : ℚ),
        (afLoop startZ sc fuel n offset best dir).2.length ≤ fuel := by
      intro startZ sc fuel
      induction fuel with
      | zero =>
        intro n offset best dir
        simp [afLoop]
      | succ fuel ih =>
        intro n offset best dir
        rw [afLoop_succ]
        split
        · simp
        · split
          · simpa using ih (n + 1) (offset + 1/2 * dir) (sc n) dir
          · split
            · simpa using ih (n + 1) 0 best (-1)
            · simp
    intro startZ sc initScore
    exact hlen startZ sc 10 0 0 initScore 1
  · intro startZ sc fuel n offset best hrange himp
    rw [afLoop_succ, if_neg hrange, if_neg himp, if_pos rfl]
  · intro startZ sc fuel n offset best hrange himp
    rw [afLoop_succ, if_neg hrange, if_neg himp,
      if_neg (by norm_num : ¬ ((-1 : ℚ) = 1))]

/-! ### Visual servo control loop: C1, C6 -/

theorem controlCmd_cmdPos (goal : Vec3) (st : LoopState) (tk : Tick) :
    (controlCmd goal st tk).cmdPos
      = some ⟨tk.ee.x + (goal.x - tk.ee.x) * 0.8,
              tk.ee.y + (goal.y - tk.ee.y) * 0.8,
              tk.ee.z + (goal.z - tk.ee.z) * 0.8⟩ := by
  rw [controlCmd]
  repeat' split
  all_goals rfl

theorem controlCmd_phaseOf (goal : Vec3) (st : LoopState) (tk : Tick) :
    (controlCmd goal st tk).phaseOf = some st.phase := by
  rw [controlCmd]
  repeat' split
  all_goals rfl

theorem controlCmd_retryOf (goal : Vec3) (st : LoopState) (tk : Tick) :
    (controlCmd goal st tk).retryOf = some st.retryStart := by
  rw [controlCmd]
  repeat' split
  all_goals rfl

theorem controlCmd_ne_success (goal : Vec3) (st : LoopState) (tk : Tick) :
    controlCmd goal st tk ≠ .success := by
  rw [controlCmd]
  repeat' split
  all_goals intro h
  all_goals cases h

/-- C1: for every tick of the visual-servo loop (no timeout, target
visible): in phase APPROACH the goal is the target with z raised by 8 cm
and each axis command equals `current + 0.8 * (goal - current)`, and the
step enters phase DESCEND exactly when the horizontal (x, y) error is
below 1.0 cm; in phase DESCEND the goal is the target plus the grasp-depth
offset, the step returns success exactly when the vertical error is below
0.5 cm (the 0.3 s settle pause before the success return is a sleep that
changes no modelled state), and otherwise commands
`current + 0.8 * (goal - current)` toward the descend goal. -/
theorem C1_servo_two_phase_control (graspDepth startTime : ℝ)
    (st : LoopState) (tk : Tick) (tp : Vec3)
    (htime : ¬ tk.now - startTime > 60) (htgt : tk.target = some tp) :
    (st.phase = .APPROACH →
      (servoStep graspDepth startTime st tk).cmdPos
        = some ⟨tk.ee.x + (tp.x - tk.ee.x) * 0.8,
                tk.ee.y + (tp.y - tk.ee.y) * 0.8,
                tk.ee.z + (tp.z + 8 - tk.ee.z) * 0.8⟩
      ∧ ((servoStep graspDepth startTime st tk).phaseOf = some .DESCEND ↔
          Real.sqrt ((tk.ee.x - tp.x)^2 + (tk.ee.y - tp.y)^2) < 1))
    ∧ (st.phase = .DESCEND →
      ((servoStep graspDepth startTime st tk = .success) ↔
          |tk.ee.z - (tp.z + graspDepth)| < 0.5)
      ∧ (¬ |tk.ee.z - (tp.z + graspDepth)| < 0.5 →
          (servoStep graspDepth startTime st tk).cmdPos
            = some ⟨tk.ee.x + (tp.x - tk.ee.x) * 0.8,
                    tk.ee.y + (tp.y - tk.ee.y) * 0.8,
                    tk.ee.z + (tp.z + graspDepth - tk.ee.z) * 0.8⟩)) := by
  constructor
  · intro hph
    have hunfold : servoStep graspDepth startTime st tk
        = if Real.sqrt ((tk.ee.x - tp.x)^2 + (tk.ee.y - tp.y)^2) < 1 then
            controlCmd ⟨tp.x, tp.y, tp.z + 8⟩
              { st with retryStart := none, phase := .DESCEND } tk
          else
            controlCmd ⟨tp.x, tp.y, tp.z + 8⟩ { st with retryStart := none } tk := by
      rw [servoStep, if_neg htime]
      simp only [htgt, hph]
    constructor
    · by_cases hxy : Real.sqrt ((tk.ee.x - tp.x)^2 + (tk.ee.y - tp.y)^2) < 1
      · rw [hunfold, if_pos hxy, controlCmd_cmdPos]
      · rw [hunfold, if_neg hxy, controlCmd_cmdPos]
    · by_cases hxy : Real.sqrt ((tk.ee.x - tp.x)^2 + (tk.ee.y - tp.y)^2) < 1
      · rw [hunfold, if_pos hxy, controlCmd_phaseOf]
        simp [hxy]
      · rw [hunfold, if_neg hxy, controlCmd_phaseOf]
        show some st.phase = some Phase.DESCEND ↔ _
        rw [hph]
        constructor
        · intro hcon
          simp at hcon
        · intro hcon
          exact absurd hcon hxy
  · intro hph
    have hunfold : servoStep graspDepth startTime st tk
        = if |tk.ee.z - (tp.z + graspDepth)| < 0.5 then .success
          else controlCmd ⟨tp.x, tp.y, tp.z + graspDepth⟩
            { st with retryStart := none } tk := by
      rw [servoStep, if_neg htime]
      simp only [htgt, hph]
    by_cases hz : |tk.ee.z - (tp.z + graspDepth)| < 0.5
    · rw [hunfold, if_pos hz]
      exact ⟨⟨fun _ => hz, fun _ => rfl⟩, fun hcon => absurd hz hcon⟩
    · rw [hunfold, if_neg hz]
      refine ⟨⟨fun hcon => absurd hcon (controlCmd_ne_success _ _ _), fun hcon => absurd hcon hz⟩, ?_⟩
      intro _
      rw [controlCmd_cmdPos]

/-- Witness for C1: a tick at time 0 with the end-effector at (0, 0, 8)
over a target at the origin, in phase APPROACH, grasp depth -1.5. -/
theorem C1_servo_two_phase_control_witness :
    ((⟨Phase.APPROACH, none, none⟩ : LoopState).phase = .APPROACH →
      (servoStep (-1.5) 0 ⟨Phase.APPROACH, none, none⟩
          ⟨0, ⟨0, 0, 8⟩, some ⟨0, 0, 0⟩⟩).cmdPos
        = some ⟨(0 : ℝ) + (0 - 0) * 0.8, (0 : ℝ) + (0 - 0) * 0.8,
                (8 : ℝ) + (0 + 8 - 8) * 0.8⟩
      ∧ ((servoStep (-1.5) 0 ⟨Phase.APPROACH, none, none⟩
            ⟨0, ⟨0, 0, 8⟩, some ⟨0, 0, 0⟩⟩).phaseOf = some .DESCEND ↔
          Real.sqrt (((0 : ℝ) - 0)^2 + ((0 : ℝ) - 0)^2) < 1))
    ∧ ((⟨Phase.APPROACH, none, none⟩ : LoopState).phase = .DESCEND →
      ((servoStep (-1.5) 0 ⟨Phase.APPROACH, none, none⟩
          ⟨0, ⟨0, 0, 8⟩, some ⟨0, 0, 0⟩⟩ = .success) ↔
          |(8 : ℝ) - (0 + -1.5)| < 0.5)
      ∧ (¬ |(8 : ℝ) - (0 + -1.5)| < 0.5 →
          (servoStep (-1.5) 0 ⟨Phase.APPROACH, none, none⟩
              ⟨0, ⟨0, 0, 8⟩, some ⟨0, 0, 0⟩⟩).cmdPos
            = some ⟨(0 : ℝ) + (0 - 0) * 0.8, (0 : ℝ) + (0 - 0) * 0.8,
                    (8 : ℝ) + (0 + -1.5 - 8) * 0.8⟩)) :=
  C1_servo_two_phase_control (-1.5) 0 ⟨Phase.APPROACH, none, none⟩
    ⟨0, ⟨0, 0, 8⟩, some ⟨0, 0, 0⟩⟩ ⟨0, 0, 0⟩ (by norm_num) rfl

/-- C6: one tick of the servo loop fails on the overall 60 s timeout; with
the target absent it fails exactly when the target has been continuously
absent for more than 2 s (the retry clock starting at the tick that first
missed it), otherwise it keeps polling without commanding; and whenever
the target is visible the retry clock is cleared (normal control resumes). -/
theorem C6_servo_loss_grace_and_timeout (graspDepth startTime : ℝ)
    (st : LoopState) (tk : Tick) :
    (tk.now - startTime > 60 → servoStep graspDepth startTime st tk = .failure)
    ∧ (¬ tk.now - startTime > 60 → tk.target = none →
        ((servoStep graspDepth startTime st tk = .failure) ↔
          tk.now - (st.retryStart.getD tk.now) > 2)
        ∧ (¬ tk.now - (st.retryStart.getD tk.now) > 2 →
            servoStep graspDepth startTime st tk
              = .cont { st with retryStart := some (st.retryStart.getD tk.now) }
                  none false))
    ∧ (∀ tp : Vec3, ¬ tk.now - startTime > 60 → tk.target = some tp →
        (servoStep graspDepth startTime st tk).retryOf = some none
        ∨ servoStep graspDepth startTime st tk = .success) := by
  refine ⟨?_, ?_, ?_⟩
  · intro htime
    rw [servoStep, if_pos htime]
  · intro htime htgt
    have hunfold : servoStep graspDepth startTime st tk
        = if tk.now - (st.retryStart.getD tk.now) > 2 then .failure
          else .cont { st with retryStart := some (st.retryStart.getD tk.now) }
              none false := by
      rw [servoStep, if_neg htime]
      simp only [htgt]
    constructor
    · by_cases hret : tk.now - (st.retryStart.getD tk.now) > 2
      · rw [hunfold, if_pos hret]
        exact ⟨fun _ => hret, fun _ => rfl⟩
      · rw [hunfold, if_neg hret]
        constructor
        · intro hcon
          simp at hcon
        · intro hcon
          exact absurd hcon hret
    · intro hret
      rw [hunfold, if_neg hret]
  · intro tp htime htgt
    have hbase : servoStep graspDepth startTime st tk
        = match st.phase with
          | .APPROACH =>
            if Real.sqrt ((tk.ee.x - tp.x)^2 + (tk.ee.y - tp.y)^2) < 1 then
              controlCmd ⟨tp.x, tp.y, tp.z + 8⟩
                { st with retryStart := none, phase := .DESCEND } tk
            else controlCmd ⟨tp.x, tp.y, tp.z + 8⟩ { st with retryStart := none } tk
          | .DESCEND =>
            if |tk.ee.z - (tp.z + graspDepth)| < 0.5 then .success
            else controlCmd ⟨tp.x, tp.y, tp.z + graspDepth⟩
              { st with retryStart := none } tk := by
      rw [servoStep, if_neg htime]
      simp only [htgt]
    rw [hbase]
    cases st.phase with
    | APPROACH =>
      left
      by_cases hxy : Real.sqrt ((tk.ee.x - tp.x)^2 + (tk.ee.y - tp.y)^2) < 1
      · rw [if_pos hxy, controlCmd_retryOf]
      · rw [if_neg hxy, controlCmd_retryOf]
    | DESCEND =>
      by_cases hz : |tk.ee.z - (tp.z + graspDepth)| < 0.5
      · right
        rw [if_pos hz]
      · left
        rw [if_neg hz, controlCmd_retryOf]

/-! ### Projection engine: C3, C4 -/

theorem invSqrt2_sq : invSqrt2 * invSqrt2 = 1/2 := by
  rw [invSqrt2, div_mul_div_comm, Real.mul_self_sqrt (by norm_num : (0:ℝ) ≤ 2)]
  norm_num

/-- camToWorldPt is a right inverse of the view transform: the analytic
inverse used here agrees with the numerical inverse the code computes. -/
theorem camToWorldPt_viewOfWorld (p : Vec3) : camToWorldPt (viewOfWorld p) = p := by
  obtain ⟨px, py, pz⟩ := p
  simp only [viewOfWorld, camToWorldPt, dot3, camS, camU, camF, camEye]
  simp only [Vec3.mk.injEq]
  refine ⟨?_, by ring, ?_⟩
  · linear_combination (2 * px - 1) * invSqrt2_sq
  · linear_combination (2 * pz - 1) * invSqrt2_sq

/-- camToWorldPt is a left inverse of the view transform as well. -/
theorem viewOfWorld_camToWorldPt (q : Vec3) : viewOfWorld (camToWorldPt q) = q := by
  obtain ⟨qx, qy, qz⟩ := q
  simp only [viewOfWorld, camToWorldPt, dot3, camS, camU, camF, camEye]
  simp only [Vec3.mk.injEq]
  refine ⟨by ring, ?_, ?_⟩
  · linear_combination (2 * qy) * invSqrt2_sq
  · linear_combination (2 * qz) * invSqrt2_sq

/-- C3: whenever a ground-truth object exists and its position is within
20 cm (squared distance below 400 cm^2) of the back-projected vision
estimate, `pixel_to_cm` returns the position recomputed from the observed
pixel combined with the exact planar depth of the object (its distance
from the camera plane), and all three per-axis Kalman filters are reset so
that each state_estimate equals exactly the corresponding corrected
coordinate. -/
theorem C3_oracle_depth_correction (u v d : ℝ) (g : Vec3) (fs : Filters3)
    (hd : 0 < d)
    (hnear : ((pixel_to_3d u v d).x - g.x * 100)^2
        + ((pixel_to_3d u v d).y - g.y * 100)^2
        + ((pixel_to_3d u v d).z - g.z * 100)^2 < 400) :
    (pixel_to_cm u v d (some g) fs).1
      = some (pixel_to_3d u v
          (calculate_planar_depth (g.x * 100) (g.y * 100) (g.z * 100)))
    ∧ (pixel_to_cm u v d (some g) fs).2.fx.state_estimate
      = (pixel_to_3d u v
          (calculate_planar_depth (g.x * 100) (g.y * 100) (g.z * 100))).x
    ∧ (pixel_to_cm u v d (some g) fs).2.fy.state_estimate
      = (pixel_to_3d u v
          (calculate_planar_depth (g.x * 100) (g.y * 100) (g.z * 100))).y
    ∧ (pixel_to_cm u v d (some g) fs).2.fz.state_estimate
      = (pixel_to_3d u v
          (calculate_planar_depth (g.x * 100) (g.y * 100) (g.z * 100))).z := by
  have hkey : pixel_to_cm u v d (some g) fs
      = (some (pixel_to_3d u v
            (calculate_planar_depth (g.x * 100) (g.y * 100) (g.z * 100))),
         ⟨fs.fx.reset (pixel_to_3d u v
            (calculate_planar_depth (g.x * 100) (g.y * 100) (g.z * 100))).x,
          fs.fy.reset (pixel_to_3d u v
            (calculate_planar_depth (g.x * 100) (g.y * 100) (g.z * 100))).y,
          fs.fz.reset (pixel_to_3d u v
            (calculate_planar_depth (g.x * 100) (g.y * 100) (g.z * 100))).z⟩) := by
    rw [pixel_to_cm, if_neg (not_le.mpr hd)]
    dsimp only
    rw [if_pos hnear]
  rw [hkey]
  exact ⟨rfl, rfl, rfl, rfl⟩

/-- Witness for C3: the center pixel at depth 1 m, with the ground-truth
object placed exactly at the back-projected point (distance 0 < 400). -/
theorem C3_oracle_depth_correction_witness :
    (pixel_to_cm 300 240 1
        (some ⟨(pixel_to_3d 300 240 1).x / 100, (pixel_to_3d 300 240 1).y / 100,
               (pixel_to_3d 300 240 1).z / 100⟩)
        ⟨KalmanFilter.init (1/1000) (1/10000), KalmanFilter.init (1/1000) (1/10000),
         KalmanFilter.init (1/1000) (1/10000)⟩).1
      = some (pixel_to_3d 300 240 1
          |> fun p => pixel_to_3d 300 240
            (calculate_planar_depth (p.x / 100 * 100) (p.y / 100 * 100) (p.z / 100 * 100)))
    ∧ (pixel_to_cm 300 240 1
        (some ⟨(pixel_to_3d 300 240 1).x / 100, (pixel_to_3d 300 240 1).y / 100,
               (pixel_to_3d 300 240 1).z / 100⟩)
        ⟨KalmanFilter.init (1/1000) (1/10000), KalmanFilter.init (1/1000) (1/10000),
         KalmanFilter.init (1/1000) (1/10000)⟩).2.fx.state_estimate
      = (pixel_to_3d 300 240 1
          |> fun p => pixel_to_3d 300 240
            (calculate_planar_depth (p.x / 100 * 100) (p.y / 100 * 100) (p.z / 100 * 100))).x
    ∧ (pixel_to_cm 300 240 1
        (some ⟨(pixel_to_3d 300 240 1).x / 100, (pixel_to_3d 300 240 1).y / 100,
               (pixel_to_3d 300 240 1).z / 100⟩)
        ⟨KalmanFilter.init (1/1000) (1/10000), KalmanFilter.init (1/1000) (1/10000),
         KalmanFilter.init (1/1000) (1/10000)⟩).2.fy.state_estimate
      = (pixel_to_3d 300 240 1
          |> fun p => pixel_to_3d 300 240
            (calculate_planar_depth (p.x / 100 * 100) (p.y / 100 * 100) (p.z / 100 * 100))).y
    ∧ (pixel_to_cm 300 240 1
        (some ⟨(pixel_to_3d 300 240 1).x / 100, (pixel_to_3d 300 240 1).y / 100,
               (pixel_to_3d 300 240 1).z / 100⟩)
        ⟨KalmanFilter.init (1/1000) (1/10000), KalmanFilter.init (1/1000) (1/10000),
         KalmanFilter.init (1/1000) (1/10000)⟩).2.fz.state_estimate
      = (pixel_to_3d 300 240 1
          |> fun p => pixel_to_3d 300 240
            (calculate_planar_depth (p.x / 100 * 100) (p.y / 100 * 100) (p.z / 100 * 100))).z :=
  C3_oracle_depth_correction 300 240 1
    ⟨(pixel_to_3d 300 240 1).x / 100, (pixel_to_3d 300 240 1).y / 100,
     (pixel_to_3d 300 240 1).z / 100⟩
    ⟨KalmanFilter.init (1/1000) (1/10000), KalmanFilter.init (1/1000) (1/10000),
     KalmanFilter.init (1/1000) (1/10000)⟩
    (by norm_num)
    (by
      have hc : ∀ t : ℝ, t / 100 * 100 = t := fun t =>
        div_mul_cancel₀ t (by norm_num)
      dsimp only
      rw [hc, hc, hc]
      simp)

/-- C4: the wrist-camera world transform first applies the fixed basis
change view (x, y, z) to local (-y, -x, -z), then rotates by the
end-effector orientation quaternion and translates by the end-effector
world position (whenever the reported orientation is non-degenerate); and
for an end-effector pose with identity orientation and zero position, with
no shared-memory orientation available to substitute, the world-space
output equals the basis-changed local point exactly. -/
theorem C4_gripper_camera_world_transform (pv ee_pos : Vec3) (orn : Quat)
    (mem : Option (Vec3 × Quat)) (hfix : ¬ needFix orn) :
    project_gripper_camera_to_world pv ee_pos orn mem
      = ⟨(quatRotate orn ⟨-pv.y, -pv.x, -pv.z⟩).x + ee_pos.x * 100,
         (quatRotate orn ⟨-pv.y, -pv.x, -pv.z⟩).y + ee_pos.y * 100,
         (quatRotate orn ⟨-pv.y, -pv.x, -pv.z⟩).z + ee_pos.z * 100⟩
    ∧ project_gripper_camera_to_world pv ⟨0, 0, 0⟩ ⟨0, 0, 0, 1⟩ none
      = ⟨-pv.y, -pv.x, -pv.z⟩ := by
  constructor
  · rw [project_gripper_camera_to_world.eq_def, if_neg hfix]
  · have hIdFix : needFix ⟨0, 0, 0, 1⟩ := Or.inr (by norm_num)
    rw [project_gripper_camera_to_world.eq_def, if_pos hIdFix]
    dsimp only [quatRotate]
    simp only [Vec3.mk.injEq]
    refine ⟨by ring, by ring, by ring⟩

/-- Witness for C4: a non-degenerate orientation (the quaternion
(1, 0, 0, 0), a 180 degree roll) with the end-effector at the origin. -/
theorem C4_gripper_camera_world_transform_witness :
    project_gripper_camera_to_world ⟨1, 2, 3⟩ ⟨0, 0, 0⟩ ⟨1, 0, 0, 0⟩ none
      = ⟨(quatRotate ⟨1, 0, 0, 0⟩ ⟨-(2 : ℝ), -(1 : ℝ), -(3 : ℝ)⟩).x + (0 : ℝ) * 100,
         (quatRotate ⟨1, 0, 0, 0⟩ ⟨-(2 : ℝ), -(1 : ℝ), -(3 : ℝ)⟩).y + (0 : ℝ) * 100,
         (quatRotate ⟨1, 0, 0, 0⟩ ⟨-(2 : ℝ), -(1 : ℝ), -(3 : ℝ)⟩).z + (0 : ℝ) * 100⟩
    ∧ project_gripper_camera_to_world ⟨1, 2, 3⟩ ⟨0, 0, 0⟩ ⟨0, 0, 0, 1⟩ none
      = ⟨-(2 : ℝ), -(1 : ℝ), -(3 : ℝ)⟩ :=
  C4_gripper_camera_world_transform ⟨1, 2, 3⟩ ⟨0, 0, 0⟩ ⟨1, 0, 0, 0⟩ none
    (by
      intro h
      rcases h with ⟨h1, _⟩ | ⟨h1, _⟩
      · norm_num at h1
      · norm_num at h1)

/-! ### Depth sampler: C2 -/

/-- C2: for every detection with a non-degenerate bounding box, the depth
estimate is computed over the inner 40% of the bounding box (30% margin
trimmed on each side, `roiLo`/`roiHi`), restricted to samples strictly
inside 0.1 m to 3.0 m, as median(valid) + std(valid); if no valid samples
remain, the single center-pixel raw depth is used instead (0 out of
bounds); and any detection whose resulting depth is at most 0.1 m is
dropped from the refined list, while the others are kept with exactly
that depth. -/
theorem C2_depth_roi_median_plus_std (dm : ℕ → ℕ → ℚ) (H W : ℕ)
    (dets : List Det) (det : Det) (hw : 0 < det.w) (hh : 0 < det.h) :
    (validDepths (roiSamples dm (roiLo det.v det.h) (roiHi det.v det.h H)
        (roiLo det.u det.w) (roiHi det.u det.w W)) ≠ [] →
      estimated_depth dm H W det
        = (medianQ (validDepths (roiSamples dm (roiLo det.v det.h)
            (roiHi det.v det.h H) (roiLo det.u det.w) (roiHi det.u det.w W))) : ℝ)
          + Real.sqrt ((varQ (validDepths (roiSamples dm (roiLo det.v det.h)
            (roiHi det.v det.h H) (roiLo det.u det.w) (roiHi det.u det.w W))) : ℝ)))
    ∧ (validDepths (roiSamples dm (roiLo det.v det.h) (roiHi det.v det.h H)
        (roiLo det.u det.w) (roiHi det.u det.w W)) = [] →
      estimated_depth dm H W det
        = if det.v < H ∧ det.u < W then ((dm det.v det.u : ℚ) : ℝ) else 0)
    ∧ (estimated_depth dm H W det ≤ 1/10 →
        ∀ r ∈ refineDepths dm H W dets, r.1 ≠ det)
    ∧ (det ∈ dets → ¬ estimated_depth dm H W det ≤ 1/10 →
        (det, estimated_depth dm H W det) ∈ refineDepths dm H W dets) := by
  refine ⟨?_, ?_, ?_, ?_⟩
  · intro hne
    rw [estimated_depth]
    rw [if_pos (List.length_pos.mpr hne)]
  · intro he
    rw [estimated_depth]
    rw [if_neg (by simp [he])]
  · intro hle r hr hreq
    obtain ⟨a, ha, hfa⟩ := List.mem_filterMap.mp hr
    by_cases hda : estimated_depth dm H W a ≤ 1/10
    · rw [if_pos hda] at hfa
      cases hfa
    · rw [if_neg hda] at hfa
      have hra : r = (a, estimated_depth dm H W a) := (Option.some.injEq _ _).mp hfa.symm
      apply hda
      rw [show a = det by rw [← hreq, hra]]
      exact hle
  · intro hdet hgt
    exact List.mem_filterMap.mpr ⟨det, hdet, by rw [if_neg hgt]⟩

/-- Witness for C2: a 4 x 4 bounding box centered at pixel (5, 5) on a
20 x 20 map of constant depth 1 m. -/
theorem C2_depth_roi_median_plus_std_witness :
    (validDepths (roiSamples (fun _ _ => 1) (roiLo 5 4) (roiHi 5 4 20)
        (roiLo 5 4) (roiHi 5 4 20)) ≠ [] →
      estimated_depth (fun _ _ => 1) 20 20 ⟨"cup", 5, 5, 4, 4⟩
        = (medianQ (validDepths (roiSamples (fun _ _ => 1) (roiLo 5 4)
            (roiHi 5 4 20) (roiLo 5 4) (roiHi 5 4 20))) : ℝ)
          + Real.sqrt ((varQ (validDepths (roiSamples (fun _ _ => 1) (roiLo 5 4)
            (roiHi 5 4 20) (roiLo 5 4) (roiHi 5 4 20))) : ℝ)))
    ∧ (validDepths (roiSamples (fun _ _ => 1) (roiLo 5 4) (roiHi 5 4 20)
        (roiLo 5 4) (roiHi 5 4 20)) = [] →
      estimated_depth (fun _ _ => 1) 20 20 ⟨"cup", 5, 5, 4, 4⟩
        = if (5 : ℕ) < 20 ∧ (5 : ℕ) < 20 then ((1 : ℚ) : ℝ) else 0)
    ∧ (estimated_depth (fun _ _ => 1) 20 20 ⟨"cup", 5, 5, 4, 4⟩ ≤ 1/10 →
        ∀ r ∈ refineDepths (fun _ _ => 1) 20 20 [⟨"cup", 5, 5, 4, 4⟩],
          r.1 ≠ ⟨"cup", 5, 5, 4, 4⟩)
    ∧ ((⟨"cup", 5, 5, 4, 4⟩ : Det) ∈ [(⟨"cup", 5, 5, 4, 4⟩ : Det)] →
        ¬ estimated_depth (fun _ _ => 1) 20 20 ⟨"cup", 5, 5, 4, 4⟩ ≤ 1/10 →
        ((⟨"cup", 5, 5, 4, 4⟩ : Det), estimated_depth (fun _ _ => 1) 20 20 ⟨"cup", 5, 5, 4, 4⟩)
          ∈ refineDepths (fun _ _ => 1) 20 20 [⟨"cup", 5, 5, 4, 4⟩]) := by
  exact C2_depth_roi_median_plus_std (fun _ _ => 1) 20 20 [⟨"cup", 5, 5, 4, 4⟩]
    ⟨"cup", 5, 5, 4, 4⟩ (by norm_num) (by norm_num)

end MachVII
